import Mathlib

/-!
Formal model of the `rrframework` storage layer (package `storage`, file
`ufile.go`) and of the JSON configuration reader (package `rrconfig`).

The Go code is shallowly embedded:

* byte payloads (`[]byte`) are modelled by `Bytes`, a length together with a
  byte-valued function, so that very large payloads stay tractable;
* Go slicing `content[a:b]` is `goSlice`, which returns `none` exactly when Go
  would panic with a slice-bounds error, and integer division is `goDiv`,
  which returns `none` exactly when Go would panic with a division by zero;
* each HTTP interaction is parametrised by an abstract outcome
  (`HttpOutcome`): either `client.Do` fails, or a response with a status, a
  body-read result and an `ETag` header is obtained.  JSON decoding
  (`encoding/json`, an external library) is an oracle function supplied by
  the environment;
* the concurrent fan-out in `Save` is parametrised by a `Schedule`: the order
  in which the launched goroutines execute their bodies, and the value of the
  shared loop variable `i` that each goroutine observes when it calls
  `uploadPart` (the closure captures `i` by reference; `j` is the snapshot
  parameter).  The unsynchronised appends to `etags` are modelled as atomic
  appends in schedule order.  The error channel has capacity one and is never
  drained: a second blocked sender never reaches its deferred `wg.Done`, so
  `wg.Wait` blocks forever; this is the `deadlock` outcome.

Sequel: SHA-1, HMAC and base64 are concrete implementations of the external
crypto/encoding libraries used by `signheader`.
-/

set_option autoImplicit false

/-! ### Bytes: the model of Go `[]byte` payloads -/

/-- A byte payload: its length and the byte stored at each index below the
length.  (Indices at or above `size` are irrelevant.) -/
structure Bytes where
  size : Nat
  byte : Nat → Nat

/-- Go slicing `c[lo:hi]`: defined when `lo ≤ hi ≤ len(c)`, otherwise Go
panics (modelled by `none`). -/
def goSlice (c : Bytes) (lo hi : Nat) : Option Bytes :=
  if lo ≤ hi ∧ hi ≤ c.size then some ⟨hi - lo, fun k => c.byte (lo + k)⟩ else none

/-- Go slicing `c[lo:]`. -/
def goSliceFrom (c : Bytes) (lo : Nat) : Option Bytes :=
  goSlice c lo c.size

/-- Go integer division on non-negative operands: panics (modelled by `none`)
when the divisor is zero. -/
def goDiv (a b : Nat) : Option Nat :=
  if b = 0 then none else some (a / b)

/-! ### SHA-1, HMAC-SHA1 and base64 (the `crypto/hmac`, `crypto/sha1` and
`encoding/base64` libraries used by `signheader`), over lists of byte
values (`Nat`s below 256) -/

def MASK32 : Nat := 4294967296

/-- Rotate a 32-bit word left by `n` bits. -/
def rotl32 (n x : Nat) : Nat :=
  ((x <<< n) ||| (x >>> (32 - n))) % MASK32

/-- Split a list into consecutive chunks of `n` elements (the last chunk may
be shorter).  Returns `[]` when `n = 0`. -/
def chunksOf {α : Type} (n : Nat) : List α → List (List α)
  | [] => []
  | a :: rest =>
    if h : n = 0 then [] else
      (a :: rest).take n :: chunksOf n ((a :: rest).drop n)
termination_by l => l.length
decreasing_by
  simp only [List.length_drop, List.length_cons]
  omega

/-- Big-endian word from a list of bytes. -/
def beWord (bs : List Nat) : Nat :=
  bs.foldl (fun a b => a * 256 + b) 0

/-- The 8-byte big-endian encoding of a (64-bit) number. -/
def beBytes8 (n : Nat) : List Nat :=
  (List.range 8).reverse.map (fun i => n / 2 ^ (8 * i) % 256)

/-- The 4-byte big-endian encoding of a 32-bit word. -/
def wordBytes (w : Nat) : List Nat :=
  [w / 16777216 % 256, w / 65536 % 256, w / 256 % 256, w % 256]

/-- SHA-1 message padding: append `0x80`, zeros to 56 mod 64, then the
bit length as 8 big-endian bytes. -/
def sha1Pad (msg : List Nat) : List Nat :=
  msg ++ [128] ++ List.replicate ((119 - msg.length % 64) % 64) 0
      ++ beBytes8 (msg.length * 8)

/-- Extend the 16 words of a chunk to the 80-word SHA-1 message schedule. -/
def sha1Extend (ws : List Nat) : Array Nat :=
  (List.range 64).foldl
    (fun a _ =>
      let i := a.size
      a.push (rotl32 1 ((a.getD (i - 3) 0) ^^^ (a.getD (i - 8) 0) ^^^
                        (a.getD (i - 14) 0) ^^^ (a.getD (i - 16) 0))))
    ws.toArray

/-- The SHA-1 round function. -/
def sha1F (t b c d : Nat) : Nat :=
  if t < 20 then (b &&& c) ||| ((b ^^^ 4294967295) &&& d)
  else if t < 40 then b ^^^ c ^^^ d
  else if t < 60 then (b &&& c) ||| (b &&& d) ||| (c &&& d)
  else b ^^^ c ^^^ d

/-- The SHA-1 round constants. -/
def sha1K (t : Nat) : Nat :=
  if t < 20 then 1518500249
  else if t < 40 then 1859775393
  else if t < 60 then 2400959708
  else 3395469782

/-- The five 32-bit words of SHA-1 state. -/
structure Sha1State where
  h0 : Nat
  h1 : Nat
  h2 : Nat
  h3 : Nat
  h4 : Nat

/-- Process one 64-byte chunk. -/
def sha1Chunk (st : Sha1State) (chunk : List Nat) : Sha1State :=
  let w := sha1Extend ((chunksOf 4 chunk).map beWord)
  let final := (List.range 80).foldl
    (fun (abcde : Nat × Nat × Nat × Nat × Nat) t =>
      let (a, b, c, d, e) := abcde
      let temp := (rotl32 5 a + sha1F t b c d + e + sha1K t + w.getD t 0) % MASK32
      (temp, a, rotl32 30 b, c, d))
    (st.h0, st.h1, st.h2, st.h3, st.h4)
  let (a, b, c, d, e) := final
  ⟨(st.h0 + a) % MASK32, (st.h1 + b) % MASK32, (st.h2 + c) % MASK32,
   (st.h3 + d) % MASK32, (st.h4 + e) % MASK32⟩

/-- SHA-1 of a byte list, as a 20-byte list. -/
def sha1 (msg : List Nat) : List Nat :=
  let fin := (chunksOf 64 (sha1Pad msg)).foldl sha1Chunk
    ⟨1732584193, 4023233417, 2562383102, 271733878, 3285377520⟩
  wordBytes fin.h0 ++ wordBytes fin.h1 ++ wordBytes fin.h2 ++
    wordBytes fin.h3 ++ wordBytes fin.h4

/-- HMAC-SHA1 (`hmac.New(sha1.New, key)` followed by `Write`/`Sum`). -/
def hmacSha1 (key msg : List Nat) : List Nat :=
  let k0 := if 64 < key.length then sha1 key else key
  let k := k0 ++ List.replicate (64 - k0.length) 0
  sha1 ((k.map (fun b => b ^^^ 92)) ++ sha1 ((k.map (fun b => b ^^^ 54)) ++ msg))

/-- The standard base64 alphabet. -/
def b64Alphabet : List Char :=
  "ABCDEFGHIJKLMNOPQRSTUVWXYZabcdefghijklmnopqrstuvwxyz0123456789+/".data

def b64Char (n : Nat) : Char :=
  b64Alphabet.getD n 'A'

/-- Encode a chunk of at most three bytes as four base64 characters. -/
def base64Chunk (c : List Nat) : List Char :=
  match c with
  | [a, b, c2] =>
    let n := a * 65536 + b * 256 + c2
    [b64Char (n / 262144), b64Char (n / 4096 % 64), b64Char (n / 64 % 64), b64Char (n % 64)]
  | [a, b] =>
    let n := a * 65536 + b * 256
    [b64Char (n / 262144), b64Char (n / 4096 % 64), b64Char (n / 64 % 64), '=']
  | [a] =>
    let n := a * 65536
    [b64Char (n / 262144), b64Char (n / 4096 % 64), '=', '=']
  | _ => []

/-- `base64.StdEncoding.EncodeToString`. -/
def base64Encode (bs : List Nat) : String :=
  String.mk ((chunksOf 3 bs).map base64Chunk).flatten

/-- The UTF-8 bytes of a string (`[]byte(s)` in Go). -/
def strBytes (s : String) : List Nat :=
  s.toUTF8.toList.map (fun b => b.toNat)

/-! ### The storage data model (`ufile.go`) -/

/-- `UfileStorage`: the credential triple. -/
structure UfileStorage where
  PublicKey : String
  PrivateKey : String
  BucketName : String

def EXPIRE : Nat := 3600

def SUFFIX : String := ".ufile.ucloud.cn"

def MAX_PUT_SIZE : Nat := 52428800

/-- `signheader`: builds the canonical string line by line exactly as the Go
code does, and returns the base64 of the HMAC-SHA1 under the private key. -/
def signheader (s : UfileStorage) (method ctype bucket filename : String) : String :=
  let data := method ++ "\n"
  let data := data ++ "\n"
  let data := data ++ (ctype ++ "\n")
  let data := data ++ "\n"
  let data := data ++ ("/" ++ bucket ++ "/" ++ filename)
  base64Encode (hmacSha1 (strBytes s.PrivateKey) (strBytes data))

/-! ### The HTTP interaction model -/

/-- An HTTP request as built by the Go code: method, URL and the headers
added with `req.Header.Add`, in order. -/
structure HttpRequest where
  method : String
  url : String
  headers : List (String × String)

/-- The outcome of one `client.Do` call together with the subsequent
`ioutil.ReadAll` of the body:
either `client.Do` itself returns an error (`doErr`: a transport failure, no
response obtained), or a response arrives with a status code, a body-read
result and the value of the `ETag` response header. -/
inductive HttpOutcome where
  | doErr (e : String)
  | resp (status : Nat) (bodyRead : Except String String) (etag : String)

/-- The Go `error` values produced by `ufile.go`, separated by provenance:
`transport` wraps an error returned by `client.Do`, `readBody` one returned
by `ioutil.ReadAll`, `message` is a `fmt.Errorf` message, and `jsonErr`
wraps a `json.Unmarshal` error. -/
inductive GoErr where
  | transport (e : String)
  | readBody (e : String)
  | message (s : String)
  | jsonErr (e : String)
deriving DecidableEq

/-- `initResponse`. -/
structure initResponse where
  UploadId : String
  BlkSize : Nat
  Bucket : String
  Key : String
deriving DecidableEq

/-- `uploadResponse`. -/
structure uploadResponse where
  PartNumber : Nat
deriving DecidableEq

/-- `finishResponse`. -/
structure finishResponse where
  Bucket : String
  Key : String
  FileSize : Nat
deriving DecidableEq

/-! ### The five operations of `ufile.go`

Each operation is split into the request it builds (returned first, for the
trace) and the result it computes from the abstract HTTP outcome.  The
result components mirror the Go control flow statement by statement. -/

/-- Result phase of `put`: `client.Do` error is returned as-is; on a non-200
status the body is read (a read error is returned as-is) and wrapped in
`put file failed, <body>`; a 200 status returns `nil` without reading the
body. -/
def putResult (o : HttpOutcome) : Option GoErr :=
  match o with
  | .doErr e => some (.transport e)
  | .resp status bodyRead _ =>
    if status ≠ 200 then
      match bodyRead with
      | .error e => some (.readBody e)
      | .ok body => some (.message ("put file failed, " ++ body))
    else none

/-- `put`: the single-shot upload.  Returns the request built and the
result. -/
def put (s : UfileStorage) (o : HttpOutcome) (content : Bytes) (filename : String) :
    HttpRequest × Option GoErr :=
  let sign := signheader s "PUT" "application/octet-stream" s.BucketName filename
  let auth := "UCloud" ++ " " ++ s.PublicKey ++ ":" ++ sign
  let url := "http://" ++ s.BucketName ++ SUFFIX ++ "/" ++ filename
  (⟨"PUT", url,
    [("Authorization", auth), ("Content-Type", "application/octet-stream"),
     ("Content-Length", toString content.size)]⟩,
   putResult o)

/-- Result phase of `initiateMultipartUpload`: `client.Do` error, then body
read error, then non-200 status (`initiateMultipartUpload failed, <body>`),
then `json.Unmarshal` error, and finally the decoded `initResponse`. -/
def initResult (o : HttpOutcome) (unmarshal : String → Except String initResponse) :
    Except GoErr initResponse :=
  match o with
  | .doErr e => .error (.transport e)
  | .resp status bodyRead _ =>
    match bodyRead with
    | .error e => .error (.readBody e)
    | .ok body =>
      if status ≠ 200 then .error (.message ("initiateMultipartUpload failed, " ++ body))
      else
        match unmarshal body with
        | .error e => .error (.jsonErr e)
        | .ok res => .ok res

/-- `initiateMultipartUpload`. -/
def initiateMultipartUpload (s : UfileStorage) (o : HttpOutcome)
    (unmarshal : String → Except String initResponse) (filename : String) :
    HttpRequest × Except GoErr initResponse :=
  let sign := signheader s "POST" "application/octet-stream" s.BucketName filename
  let auth := "UCloud" ++ " " ++ s.PublicKey ++ ":" ++ sign
  let url := "http://" ++ s.BucketName ++ SUFFIX ++ "/" ++ filename ++ "?uploads"
  (⟨"POST", url,
    [("Authorization", auth), ("Content-Type", "application/octet-stream")]⟩,
   initResult o unmarshal)

/-- Result phase of `uploadPart`: `client.Do` error, then body read error,
then non-200 status (`uploadPart failed, <body>`), then `json.Unmarshal`
error, and finally the decoded `uploadResponse` together with the `ETag`
response header. -/
def uploadResult (o : HttpOutcome) (unmarshal : String → Except String uploadResponse) :
    Except GoErr (uploadResponse × String) :=
  match o with
  | .doErr e => .error (.transport e)
  | .resp status bodyRead etag =>
    match bodyRead with
    | .error e => .error (.readBody e)
    | .ok body =>
      if status ≠ 200 then .error (.message ("uploadPart failed, " ++ body))
      else
        match unmarshal body with
        | .error e => .error (.jsonErr e)
        | .ok res => .ok (res, etag)

/-- `uploadPart`: one part upload.  The `Content-Length` header is set from
`info.BlkSize`, not from `content`. -/
def uploadPart (s : UfileStorage) (content : Bytes) (info : initResponse) (partNum : Nat)
    (o : HttpOutcome) (unmarshal : String → Except String uploadResponse) :
    HttpRequest × Except GoErr (uploadResponse × String) :=
  let sign := signheader s "PUT" "application/octet-stream" info.Bucket info.Key
  let auth := "UCloud" ++ " " ++ s.PublicKey ++ ":" ++ sign
  let url := "http://" ++ info.Bucket ++ SUFFIX ++ "/" ++ info.Key ++ "?uploadId=" ++
    info.UploadId ++ "&partNumber=" ++ toString partNum
  (⟨"PUT", url,
    [("Authorization", auth), ("Content-Type", "application/octet-stream"),
     ("Content-Length", toString info.BlkSize)]⟩,
   uploadResult o unmarshal)

/-- Result phase of `finishMultipartUpload`. -/
def finishResult (o : HttpOutcome) (unmarshal : String → Except String finishResponse) :
    Except GoErr finishResponse :=
  match o with
  | .doErr e => .error (.transport e)
  | .resp status bodyRead _ =>
    match bodyRead with
    | .error e => .error (.readBody e)
    | .ok body =>
      if status ≠ 200 then .error (.message ("finishMultipartUpload failed, " ++ body))
      else
        match unmarshal body with
        | .error e => .error (.jsonErr e)
        | .ok res => .ok res

/-- `finishMultipartUpload`: sends the comma-joined etags string. -/
def finishMultipartUpload (s : UfileStorage) (info : initResponse) (etags : String)
    (o : HttpOutcome) (unmarshal : String → Except String finishResponse) :
    HttpRequest × Except GoErr finishResponse :=
  let sign := signheader s "POST" "text/plain" info.Bucket info.Key
  let auth := "UCloud" ++ " " ++ s.PublicKey ++ ":" ++ sign
  let url := "http://" ++ info.Bucket ++ SUFFIX ++ "/" ++ info.Key ++ "?uploadId=" ++
    info.UploadId ++ "&newKey=" ++ info.Key
  (⟨"POST", url,
    [("Authorization", auth), ("Content-Length", toString etags.length),
     ("Content-Type", "text/plain")]⟩,
   finishResult o unmarshal)

/-! ### The `Save` orchestrator -/

/-- The environment: outcomes of all network calls and the behaviour of the
external JSON decoder.  `partOutcome j` is the outcome of the HTTP call made
by the goroutine launched for index `j`; `remOutcome` is the outcome of the
synchronous remainder upload. -/
structure Env where
  putOutcome : HttpOutcome
  initOutcome : HttpOutcome
  unmarshalInit : String → Except String initResponse
  partOutcome : Nat → HttpOutcome
  unmarshalPart : String → Except String uploadResponse
  remOutcome : HttpOutcome
  finishOutcome : HttpOutcome
  unmarshalFinish : String → Except String finishResponse

/-- A schedule for the concurrent fan-out: `order` is the order in which the
launched goroutine bodies run to completion (a permutation of the launched
indices), and `iObs j` is the value of the shared loop variable `i` that
goroutine `j` observes when it calls `uploadPart` (the closure captures `i`
by reference; under the Go memory model any value between `j` and the final
loop value can be observed). -/
structure Schedule where
  order : List Nat
  iObs : Nat → Nat

/-- One entry of the call trace of `Save`. -/
inductive Event where
  | putCall (req : HttpRequest) (filename : String)
  | initCall (req : HttpRequest) (filename : String)
  | partCall (req : HttpRequest) (part : Bytes) (info : initResponse) (partNum : Nat)
  | finishCall (req : HttpRequest) (info : initResponse) (etags : String)

/-- The final state of a `Save` run: a panic (slice bounds / division by
zero), a deadlock (`wg.Wait` never returns: at least two failed goroutines
block on the capacity-one error channel that nobody drains, so their
deferred `wg.Done` calls never run), or a normal return carrying the Go
error value (`none` is Go's `nil`). -/
inductive SaveOutcome where
  | panic
  | deadlock
  | done (r : Option GoErr)
deriving DecidableEq

/-- The mutable state shared by the fan-out: the `etags` slice, the number of
goroutines stuck after a failed upload (they sent or tried to send on the
error channel), the part-call trace so far, and whether some goroutine
panicked. -/
structure PhaseState where
  etags : List String
  fails : Nat
  events : List Event
  panicked : Bool

/-- The body of the goroutine launched for index `j`, acting on the shared
state: slice `content[j*BlkSize:(j+1)*BlkSize]`, call `uploadPart` passing
the observed value of the shared loop variable `i` as the part number, and
on success append the etag to the shared `etags` slice. -/
def goroutineStep (s : UfileStorage) (env : Env) (sch : Schedule) (content : Bytes)
    (initRes : initResponse) (st : PhaseState) (j : Nat) : PhaseState :=
  if st.panicked then st else
  match goSlice content (j * initRes.BlkSize) ((j + 1) * initRes.BlkSize) with
  | none => { st with panicked := true }
  | some part =>
    let pn := sch.iObs j
    let ev := Event.partCall
      (uploadPart s part initRes pn (env.partOutcome j) env.unmarshalPart).1 part initRes pn
    match (uploadPart s part initRes pn (env.partOutcome j) env.unmarshalPart).2 with
    | .error _ => { st with fails := st.fails + 1, events := st.events ++ [ev] }
    | .ok pr =>
      { st with etags := st.etags ++ [pr.2], events := st.events ++ [ev] }

/-- The tail of `Save`'s multipart branch: join the etags with commas and
call `finishMultipartUpload`. -/
def finishPhase (s : UfileStorage) (env : Env) (initRes : initResponse)
    (evs : List Event) (etags : List String) : SaveOutcome × List Event :=
  let joined := String.intercalate "," etags
  let freq := (finishMultipartUpload s initRes joined env.finishOutcome env.unmarshalFinish).1
  match (finishMultipartUpload s initRes joined env.finishOutcome env.unmarshalFinish).2 with
  | .error e => (.done (some e), evs ++ [.finishCall freq initRes joined])
  | .ok _ => (.done none, evs ++ [.finishCall freq initRes joined])

/-- The remainder step of `Save`: if `num*BlkSize < size`, upload
`content[num*BlkSize:]` synchronously as part number `num` and append its
etag, then finish. -/
def remainderPhase (s : UfileStorage) (env : Env) (content : Bytes)
    (initRes : initResponse) (num : Nat) (evs : List Event) (etags : List String) :
    SaveOutcome × List Event :=
  if num * initRes.BlkSize < content.size then
    match goSliceFrom content (num * initRes.BlkSize) with
    | none => (.panic, evs)
    | some part =>
      let ev := Event.partCall
        (uploadPart s part initRes num env.remOutcome env.unmarshalPart).1 part initRes num
      match (uploadPart s part initRes num env.remOutcome env.unmarshalPart).2 with
      | .error e => (.done (some e), evs ++ [ev])
      | .ok pr => finishPhase s env initRes (evs ++ [ev]) (etags ++ [pr.2])
  else finishPhase s env initRes evs etags

/-- `Save`: single-shot below the 50 MiB threshold, multipart above it.  The
multipart branch initiates a session, computes `num = size / BlkSize`,
launches one goroutine per index below `num` (run here in schedule order),
waits, uploads the remainder if any, and finalizes.  Goroutine errors go to
a channel nobody reads. -/
def Save (s : UfileStorage) (env : Env) (sch : Schedule) (content : Bytes)
    (filename : String) : SaveOutcome × List Event :=
  if MAX_PUT_SIZE < content.size then
    let ireq := (initiateMultipartUpload s env.initOutcome env.unmarshalInit filename).1
    match (initiateMultipartUpload s env.initOutcome env.unmarshalInit filename).2 with
    | .error e => (.done (some e), [.initCall ireq filename])
    | .ok initRes =>
      match goDiv content.size initRes.BlkSize with
      | none => (.panic, [.initCall ireq filename])
      | some num =>
        let st := sch.order.foldl (goroutineStep s env sch content initRes) ⟨[], 0, [], false⟩
        let evs := Event.initCall ireq filename :: st.events
        if st.panicked then (.panic, evs)
        else if 2 ≤ st.fails then (.deadlock, evs)
        else remainderPhase s env content initRes num evs st.etags
  else
    (.done (put s env.putOutcome content filename).2,
     [.putCall (put s env.putOutcome content filename).1 filename])

/-! ### The JSON configuration reader (package `rrconfig`) -/

/-- A decoded JSON value, as produced by `json.Unmarshal` into
`interface{}`: `null`, booleans, numbers (the numeric payload is irrelevant
to the lookup logic), strings, arrays, and objects
(`map[string]interface{}`, with unique keys, modelled as an association
list). -/
inductive Jv where
  | null
  | bool (b : Bool)
  | num (x : Int)
  | str (s : String)
  | arr (xs : List Jv)
  | obj (fields : List (String × Jv))

/-- Map indexing `m[k]` with its `ok` flag: the value stored under the first
matching key. -/
def jLookup (m : List (String × Jv)) (k : String) : Option Jv :=
  match m with
  | [] => none
  | (k2, v) :: rest => if k2 = k then some v else jLookup rest k

/-- The type switch `v.(map[string]interface{})`. -/
def jvIsObj : Jv → Bool
  | .obj _ => true
  | _ => false

/-- `JsonConfig`: the decoded document and the raw bytes. -/
structure JsonConfig where
  m : List (String × Jv)
  rb : String

/-- The loop of `JsonConfig.Get`, over the already-split component list:
look up the current component; if present and an object, descend; if
present and not an object, return it (with a nil error) discarding any
remaining components; if absent, fail with `no value for key <key>`.  When
the components are exhausted the current object is returned. -/
def getNodes (key : String) (m : List (String × Jv)) : List String → Except String Jv
  | [] => .ok (.obj m)
  | n :: rest =>
    match jLookup m n with
    | some v =>
      match v with
      | .obj vv => getNodes key vv rest
      | _ => .ok v
    | none => .error ("no value for key " ++ key)

/-- `JsonConfig.Get`: split the dotted key and run the traversal loop. -/
def JsonConfig.Get (s : JsonConfig) (key : String) : Except String Jv :=
  getNodes key s.m (key.splitOn ".")

/-! ### Trace projections -/

/-- The argument string of the (first) finalize call in a trace, if any. -/
def finishArg : List Event → Option String
  | [] => none
  | .finishCall _ _ etags :: _ => some etags
  | _ :: rest => finishArg rest

/-- The part numbers passed to the part-upload calls of a trace, in call
order. -/
def partNums (es : List Event) : List Nat :=
  es.filterMap fun e =>
    match e with
    | .partCall _ _ _ pn => some pn
    | _ => none

/-- The first transmitted byte of each part-upload call of a trace: for a
part sliced at offset `lo` this is the payload byte at `lo`. -/
def partStarts (es : List Event) : List Nat :=
  es.filterMap fun e =>
    match e with
    | .partCall _ p _ _ => some (p.byte 0)
    | _ => none

/-- The `(bytes, partNumber)` pair of each part-upload call of a trace. -/
def partEvents (es : List Event) : List (Bytes × Nat) :=
  es.filterMap fun e =>
    match e with
    | .partCall _ p _ pn => some (p, pn)
    | _ => none

/-- Whether an event's request carries a `Content-Length` header equal to
the session's block size; trivially true for non-part events. -/
def contentLengthOk : Event → Bool
  | .partCall req _ info _ =>
    req.headers.lookup "Content-Length" == some (toString info.BlkSize)
  | _ => true

/-- Whether an `Except` is an `ok`. -/
def exOk {ε α : Type} : Except ε α → Bool
  | .ok _ => true
  | .error _ => false

/-! ### Concrete fixtures -/

def s0 : UfileStorage := ⟨"pubkey", "prikey", "bucket"⟩

/-- A session whose server-assigned block size is 26214401 bytes, so a
52428802-byte payload has exactly two full parts and no remainder. -/
def initRes0 : initResponse := ⟨"uid", 26214401, "bucket", "file"⟩

/-- An environment in which every call succeeds; the goroutine launched for
index `j` receives etag `tag<j>`. -/
def env1 : Env where
  putOutcome := .resp 200 (.ok "") ""
  initOutcome := .resp 200 (.ok "") ""
  unmarshalInit := fun _ => .ok initRes0
  partOutcome := fun j => .resp 200 (.ok "") ("tag" ++ toString j)
  unmarshalPart := fun _ => .ok ⟨0⟩
  remOutcome := .resp 200 (.ok "") "rtag"
  finishOutcome := .resp 200 (.ok "") ""
  unmarshalFinish := fun _ => .ok ⟨"bucket", "file", 0⟩

/-- A 52428802-byte payload (2 bytes over the 50 MiB threshold), all zeros. -/
def content1 : Bytes := ⟨52428802, fun _ => 0⟩

/-- A 52428802-byte payload whose byte at index `k` is `k` (so the first
byte of a slice reveals its offset). -/
def content2 : Bytes := ⟨52428802, fun k => k⟩

/-- The schedule in which the goroutine for part 1 completes before the one
for part 0, each observing its own index in the loop variable. -/
def sch1 : Schedule := ⟨[1, 0], fun j => j⟩

/-- The schedule in which the goroutines complete in index order but run
only after the launch loop has terminated, so both observe the final value
2 of the shared loop variable. -/
def sch2 : Schedule := ⟨[0, 1], fun _ => 2⟩

/-- The in-order schedule, each goroutine observing its own index. -/
def sch3 : Schedule := ⟨[0, 1], fun j => j⟩

/-- Like `env1` except that the part upload of goroutine 0 fails with an
HTTP 500. -/
def env3 : Env :=
  { env1 with
    partOutcome := fun j =>
      if j = 0 then .resp 500 (.ok "boom") "" else .resp 200 (.ok "") ("tag" ++ toString j) }

/-- A session whose block size is 26214400 bytes, so a 52428801-byte
payload has two full parts and a one-byte remainder. -/
def initRes4 : initResponse := ⟨"uid", 26214400, "bucket", "file"⟩

/-- Like `env1` but initiating with block size 26214400. -/
def env4 : Env := { env1 with unmarshalInit := fun _ => .ok initRes4 }

/-- A 52428801-byte payload (1 byte over the threshold). -/
def content4 : Bytes := ⟨52428801, fun k => k⟩

/-- A 3-byte payload, far below the threshold. -/
def content3 : Bytes := ⟨3, fun _ => 7⟩

/-- A session with block size 0 (the degenerate server answer). -/
def initRes5 : initResponse := ⟨"uid", 0, "bucket", "file"⟩

/-- Like `env1` but initiating with block size 0. -/
def env5 : Env := { env1 with unmarshalInit := fun _ => .ok initRes5 }

/-- A credential triple sharing `s0`'s private key but nothing else. -/
def s1 : UfileStorage := ⟨"otherpub", "prikey", "otherbucket"⟩

/-! ### Derived descriptions of the fan-out (used to state the theorems) -/

/-- The byte range `[j*B, (j+1)*B)` of the payload, as produced by a
successful `goSlice`. -/
def partSlice (content : Bytes) (B j : Nat) : Bytes :=
  ⟨(j + 1) * B - j * B, fun k => content.byte (j * B + k)⟩

/-- The etag goroutine `j` appends, if its upload succeeds. -/
def goodTag (env : Env) (j : Nat) : Option String :=
  match uploadResult (env.partOutcome j) env.unmarshalPart with
  | .ok pr => some pr.2
  | .error _ => none

/-- Whether goroutine `j`'s upload fails. -/
def isBadCall (env : Env) (j : Nat) : Bool :=
  !exOk (uploadResult (env.partOutcome j) env.unmarshalPart)

/-- The trace event generated by goroutine `j`. -/
def goroutineEvent (s : UfileStorage) (env : Env) (sch : Schedule) (content : Bytes)
    (initRes : initResponse) (j : Nat) : Event :=
  .partCall
    (uploadPart s (partSlice content initRes.BlkSize j) initRes (sch.iObs j)
      (env.partOutcome j) env.unmarshalPart).1
    (partSlice content initRes.BlkSize j) initRes (sch.iObs j)

/-- Pure navigation through nested objects: follow the listed components as
long as each maps to an object; `none` as soon as one is absent or maps to
a non-object.  (Used only to state which object the `Get` loop has reached
before a given component.) -/
def descend (m : List (String × Jv)) : List String → Option (List (String × Jv))
  | [] => some m
  | n :: rest =>
    match jLookup m n with
    | some (.obj vv) => descend vv rest
    | _ => none

/-! ### Theorems -/

theorem uploadPart_snd (s : UfileStorage) (c : Bytes) (info : initResponse) (pn : Nat)
    (o : HttpOutcome) (u : String → Except String uploadResponse) :
    (uploadPart s c info pn o u).2 = uploadResult o u := rfl

theorem put_snd (s : UfileStorage) (o : HttpOutcome) (c : Bytes) (f : String) :
    (put s o c f).2 = putResult o := rfl

theorem partSlice_size (content : Bytes) (B j : Nat) :
    (partSlice content B j).size = B := by
  simp [partSlice, Nat.succ_mul]

theorem goSlice_part (content : Bytes) (B j : Nat) (h : (j + 1) * B ≤ content.size) :
    goSlice content (j * B) ((j + 1) * B) = some (partSlice content B j) := by
  unfold goSlice partSlice
  rw [if_pos]
  exact ⟨Nat.mul_le_mul_right _ (Nat.le_succ j), h⟩

theorem foldl_phase (s : UfileStorage) (env : Env) (sch : Schedule) (content : Bytes)
    (initRes : initResponse) (order : List Nat)
    (hrange : ∀ j ∈ order, (j + 1) * initRes.BlkSize ≤ content.size)
    (st : PhaseState) (hp : st.panicked = false) :
    order.foldl (goroutineStep s env sch content initRes) st =
      { etags := st.etags ++ order.filterMap (goodTag env),
        fails := st.fails + order.countP (isBadCall env),
        events := st.events ++ order.map (goroutineEvent s env sch content initRes),
        panicked := false } := by
  induction order generalizing st with
  | nil =>
    simp only [List.foldl_nil, List.filterMap_nil, List.append_nil, List.countP_nil,
      Nat.add_zero, List.map_nil]
    cases st
    simp_all
  | cons j rest ih =>
    have hj : (j + 1) * initRes.BlkSize ≤ content.size := hrange j (by simp)
    have hrest : ∀ x ∈ rest, (x + 1) * initRes.BlkSize ≤ content.size :=
      fun x hx => hrange x (by simp [hx])
    rw [List.foldl_cons]
    cases hres : uploadResult (env.partOutcome j) env.unmarshalPart with
    | error e =>
      have hstep : goroutineStep s env sch content initRes st j =
          PhaseState.mk st.etags (st.fails + 1)
            (st.events ++ [goroutineEvent s env sch content initRes j]) false := by
        simp only [goroutineStep, hp, Bool.false_eq_true, if_false,
          goSlice_part content initRes.BlkSize j hj, uploadPart_snd, hres]
        rfl
      rw [hstep, ih hrest _ rfl]
      simp only [PhaseState.mk.injEq, List.filterMap_cons, List.countP_cons,
        List.map_cons, goodTag, isBadCall, exOk, hres, List.append_assoc,
        List.singleton_append, and_true, true_and]
      simp only [Bool.not_false, reduceIte]
      omega
    | ok pr =>
      have hstep : goroutineStep s env sch content initRes st j =
          PhaseState.mk (st.etags ++ [pr.2]) st.fails
            (st.events ++ [goroutineEvent s env sch content initRes j]) false := by
        simp only [goroutineStep, hp, Bool.false_eq_true, if_false,
          goSlice_part content initRes.BlkSize j hj, uploadPart_snd, hres]
        rfl
      rw [hstep, ih hrest _ rfl]
      simp only [PhaseState.mk.injEq, List.filterMap_cons, List.countP_cons,
        List.map_cons, goodTag, isBadCall, exOk, hres, List.append_assoc,
        List.singleton_append, and_true, true_and]
      simp

theorem initiateMultipartUpload_snd (s : UfileStorage) (o : HttpOutcome)
    (u : String → Except String initResponse) (f : String) :
    (initiateMultipartUpload s o u f).2 = initResult o u := rfl

theorem finishMultipartUpload_snd (s : UfileStorage) (info : initResponse) (etags : String)
    (o : HttpOutcome) (u : String → Except String finishResponse) :
    (finishMultipartUpload s info etags o u).2 = finishResult o u := rfl

theorem finishPhase_snd (s : UfileStorage) (env : Env) (initRes : initResponse)
    (evs : List Event) (etags : List String) :
    (finishPhase s env initRes evs etags).2 =
      evs ++ [Event.finishCall
        (finishMultipartUpload s initRes (String.intercalate "," etags)
          env.finishOutcome env.unmarshalFinish).1
        initRes (String.intercalate "," etags)] := by
  unfold finishPhase
  cases hfr : (finishMultipartUpload s initRes (String.intercalate "," etags)
      env.finishOutcome env.unmarshalFinish).2 <;> simp [hfr]

theorem finishPhase_fst_ne_panic (s : UfileStorage) (env : Env) (initRes : initResponse)
    (evs : List Event) (etags : List String) :
    (finishPhase s env initRes evs etags).1 ≠ SaveOutcome.panic := by
  unfold finishPhase
  cases hfr : (finishMultipartUpload s initRes (String.intercalate "," etags)
      env.finishOutcome env.unmarshalFinish).2 <;> simp [hfr]

theorem goSliceFrom_some (c : Bytes) (lo : Nat) (h : lo ≤ c.size) :
    goSliceFrom c lo = some ⟨c.size - lo, fun k => c.byte (lo + k)⟩ := by
  unfold goSliceFrom goSlice
  rw [if_pos ⟨h, Nat.le_refl _⟩]

theorem exOk_iff {ε α : Type} (x : Except ε α) : exOk x = true ↔ ∃ a, x = .ok a := by
  cases x <;> simp [exOk]

theorem remainderPhase_snd_prefix (s : UfileStorage) (env : Env) (content : Bytes)
    (initRes : initResponse) (num : Nat) (evs : List Event) (etags : List String) :
    ∃ tail, (remainderPhase s env content initRes num evs etags).2 = evs ++ tail := by
  unfold remainderPhase
  split
  · split
    · exact ⟨[], (List.append_nil evs).symm⟩
    · split
      · exact ⟨_, rfl⟩
      · rw [finishPhase_snd]
        exact ⟨_, by rw [List.append_assoc]⟩
  · rw [finishPhase_snd]
    exact ⟨_, rfl⟩

theorem remainderPhase_fst_ne_panic (s : UfileStorage) (env : Env) (content : Bytes)
    (initRes : initResponse) (num : Nat) (evs : List Event) (etags : List String)
    (h : num * initRes.BlkSize ≤ content.size) :
    (remainderPhase s env content initRes num evs etags).1 ≠ SaveOutcome.panic := by
  unfold remainderPhase
  split
  · split
    · rename_i heq
      rw [goSliceFrom_some _ _ h] at heq
      exact absurd heq (by simp)
    · split
      · simp
      · exact finishPhase_fst_ne_panic _ _ _ _ _
  · exact finishPhase_fst_ne_panic _ _ _ _ _

theorem Save_multipart (s : UfileStorage) (env : Env) (sch : Schedule) (content : Bytes)
    (filename : String) (initRes : initResponse)
    (hsize : MAX_PUT_SIZE < content.size)
    (hinit : (initiateMultipartUpload s env.initOutcome env.unmarshalInit filename).2
      = .ok initRes)
    (hB : initRes.BlkSize ≠ 0)
    (hrange : ∀ j ∈ sch.order, (j + 1) * initRes.BlkSize ≤ content.size) :
    Save s env sch content filename =
      if 2 ≤ sch.order.countP (isBadCall env) then
        (.deadlock,
         Event.initCall (initiateMultipartUpload s env.initOutcome env.unmarshalInit filename).1
             filename
           :: sch.order.map (goroutineEvent s env sch content initRes))
      else
        remainderPhase s env content initRes (content.size / initRes.BlkSize)
          (Event.initCall (initiateMultipartUpload s env.initOutcome env.unmarshalInit filename).1
              filename
            :: sch.order.map (goroutineEvent s env sch content initRes))
          (sch.order.filterMap (goodTag env)) := by
  unfold Save
  rw [if_pos hsize, hinit]
  simp only [goDiv, hB, if_false, reduceIte]
  rw [foldl_phase s env sch content initRes sch.order hrange _ rfl]
  simp

theorem countP_isBad_zero (env : Env) (order : List Nat)
    (hok : ∀ j ∈ order, exOk (uploadResult (env.partOutcome j) env.unmarshalPart) = true) :
    order.countP (isBadCall env) = 0 := by
  rw [List.countP_eq_zero]
  intro j hj
  simp [isBadCall, hok j hj]

theorem div_mul_sub_mod (n B : Nat) : n - n / B * B = n % B := by
  nth_rewrite 1 [← Nat.div_add_mod' n B]
  rw [Nat.add_sub_cancel_left]

theorem mul_div_lt_iff_mod_ne (n B : Nat) (hB : 0 < B) : n / B * B < n ↔ n % B ≠ 0 := by
  constructor
  · intro h hmod
    have hd : B ∣ n := Nat.dvd_of_mod_eq_zero hmod
    rw [Nat.div_mul_cancel hd] at h
    exact Nat.lt_irrefl _ h
  · intro h
    calc n / B * B < n / B * B + n % B := Nat.lt_add_of_pos_right (Nat.pos_of_ne_zero h)
    _ = n := Nat.div_add_mod' n B

theorem partEvents_goroutine_cons (s : UfileStorage) (env : Env) (sch : Schedule)
    (content : Bytes) (initRes : initResponse) (j : Nat) (l : List Event) :
    partEvents (goroutineEvent s env sch content initRes j :: l) =
      (partSlice content initRes.BlkSize j, sch.iObs j) :: partEvents l := rfl

theorem partEvents_map_goroutine (s : UfileStorage) (env : Env) (sch : Schedule)
    (content : Bytes) (initRes : initResponse) (order : List Nat) :
    partEvents (order.map (goroutineEvent s env sch content initRes)) =
      order.map (fun j => (partSlice content initRes.BlkSize j, sch.iObs j)) := by
  induction order with
  | nil => rfl
  | cons j rest ih =>
    simp only [List.map_cons, partEvents_goroutine_cons, ih]

theorem partEvents_append (l1 l2 : List Event) :
    partEvents (l1 ++ l2) = partEvents l1 ++ partEvents l2 :=
  List.filterMap_append l1 l2 _

theorem partEvents_initCall_cons (req : HttpRequest) (f : String) (l : List Event) :
    partEvents (Event.initCall req f :: l) = partEvents l := rfl

theorem partEvents_partCall_cons (req : HttpRequest) (p : Bytes) (info : initResponse)
    (pn : Nat) (l : List Event) :
    partEvents (Event.partCall req p info pn :: l) = (p, pn) :: partEvents l := rfl

theorem partEvents_finishCall_cons (req : HttpRequest) (info : initResponse) (e : String)
    (l : List Event) :
    partEvents (Event.finishCall req info e :: l) = partEvents l := rfl

/-- C4: for every payload larger than 50 MiB and every server-assigned block
size B > 0, in a run of `Save` where every part upload succeeds, the number
of full-size parts uploaded equals `size / B`; if `size % B` is nonzero the
last part uploaded is the remainder, numbered `size / B` and carrying
exactly the bytes from `(size / B) * B` to the end (its length being
`size % B`); and if `size` is exactly divisible by `B` no remainder part is
uploaded. -/
theorem C4_remainder_partition (s : UfileStorage) (env : Env) (sch : Schedule)
    (content : Bytes) (filename : String) (initRes : initResponse)
    (hsize : MAX_PUT_SIZE < content.size)
    (hinit : (initiateMultipartUpload s env.initOutcome env.unmarshalInit filename).2
      = .ok initRes)
    (hB : 0 < initRes.BlkSize)
    (hperm : sch.order.Perm (List.range (content.size / initRes.BlkSize)))
    (hok : ∀ j < content.size / initRes.BlkSize,
      exOk (uploadResult (env.partOutcome j) env.unmarshalPart) = true)
    (hrem : exOk (uploadResult env.remOutcome env.unmarshalPart) = true) :
    ((partEvents (Save s env sch content filename).2).filter
        (fun pe => pe.1.size == initRes.BlkSize)).length
      = content.size / initRes.BlkSize
    ∧ (content.size % initRes.BlkSize ≠ 0 →
        (partEvents (Save s env sch content filename).2).getLast?
          = some (⟨content.size - content.size / initRes.BlkSize * initRes.BlkSize,
                   fun k => content.byte
                     (content.size / initRes.BlkSize * initRes.BlkSize + k)⟩,
                  content.size / initRes.BlkSize)
        ∧ content.size - content.size / initRes.BlkSize * initRes.BlkSize
            = content.size % initRes.BlkSize)
    ∧ (content.size % initRes.BlkSize = 0 →
        (partEvents (Save s env sch content filename).2).length
          = content.size / initRes.BlkSize
        ∧ ∀ pe ∈ partEvents (Save s env sch content filename).2,
            pe.1.size = initRes.BlkSize) := by
  have hBne : initRes.BlkSize ≠ 0 := Nat.pos_iff_ne_zero.mp hB
  have hnum : ∀ j ∈ sch.order, j < content.size / initRes.BlkSize := by
    intro j hj
    have hmem := hperm.mem_iff.mp hj
    simpa using hmem
  have hrange : ∀ j ∈ sch.order, (j + 1) * initRes.BlkSize ≤ content.size := by
    intro j hj
    calc (j + 1) * initRes.BlkSize
        ≤ content.size / initRes.BlkSize * initRes.BlkSize :=
          Nat.mul_le_mul_right _ (hnum j hj)
      _ ≤ content.size := Nat.div_mul_le_self _ _
  have hlen : sch.order.length = content.size / initRes.BlkSize := by
    rw [hperm.length_eq, List.length_range]
  have hcount := countP_isBad_zero env sch.order (fun j hj => hok j (hnum j hj))
  have hfilter : ∀ l : List Nat,
      ((l.map (fun j => (partSlice content initRes.BlkSize j, sch.iObs j))).filter
        (fun pe => pe.1.size == initRes.BlkSize))
      = l.map (fun j => (partSlice content initRes.BlkSize j, sch.iObs j)) := by
    intro l
    rw [List.filter_eq_self]
    intro pe hpe
    obtain ⟨j, _, rfl⟩ := List.mem_map.mp hpe
    simp [partSlice_size]
  rw [Save_multipart s env sch content filename initRes hsize hinit hBne hrange, hcount,
    if_neg (by omega)]
  unfold remainderPhase
  by_cases hmod : content.size % initRes.BlkSize = 0
  · have hcond : ¬ (content.size / initRes.BlkSize * initRes.BlkSize < content.size) := by
      rw [mul_div_lt_iff_mod_ne _ _ hB]
      simp [hmod]
    rw [if_neg hcond, finishPhase_snd]
    have hpe : partEvents
        ((Event.initCall
            (initiateMultipartUpload s env.initOutcome env.unmarshalInit filename).1 filename
          :: sch.order.map (goroutineEvent s env sch content initRes)) ++
          [Event.finishCall
            (finishMultipartUpload s initRes
              (String.intercalate "," (sch.order.filterMap (goodTag env)))
              env.finishOutcome env.unmarshalFinish).1
            initRes (String.intercalate "," (sch.order.filterMap (goodTag env)))])
        = sch.order.map (fun j => (partSlice content initRes.BlkSize j, sch.iObs j)) := by
      rw [List.cons_append, partEvents_initCall_cons, partEvents_append,
        partEvents_map_goroutine, partEvents_finishCall_cons]
      simp [partEvents]
    rw [hpe]
    refine ⟨?_, fun hne => absurd hmod hne, fun _ => ⟨?_, ?_⟩⟩
    · rw [hfilter, List.length_map, hlen]
    · rw [List.length_map, hlen]
    · intro pe hpe2
      obtain ⟨j, _, rfl⟩ := List.mem_map.mp hpe2
      exact partSlice_size content initRes.BlkSize j
  · have hcond : content.size / initRes.BlkSize * initRes.BlkSize < content.size :=
      (mul_div_lt_iff_mod_ne _ _ hB).mpr hmod
    rw [if_pos hcond]
    split
    · rename_i heq
      rw [goSliceFrom_some _ _ (Nat.div_mul_le_self _ _)] at heq
      exact absurd heq (by simp)
    · rename_i part heq
      rw [goSliceFrom_some _ _ (Nat.div_mul_le_self _ _)] at heq
      injection heq with hpart
      subst hpart
      obtain ⟨pr, hpr⟩ := (exOk_iff _).mp hrem
      split
      · rename_i e heq2
        rw [uploadPart_snd, hpr] at heq2
        simp at heq2
      · rename_i pr2 heq2
        rw [finishPhase_snd]
        have hpe : partEvents
            (((Event.initCall
                (initiateMultipartUpload s env.initOutcome env.unmarshalInit filename).1
                filename
              :: sch.order.map (goroutineEvent s env sch content initRes)) ++
              [Event.partCall
                (uploadPart s
                  ⟨content.size - content.size / initRes.BlkSize * initRes.BlkSize,
                   fun k => content.byte
                     (content.size / initRes.BlkSize * initRes.BlkSize + k)⟩
                  initRes (content.size / initRes.BlkSize) env.remOutcome
                  env.unmarshalPart).1
                ⟨content.size - content.size / initRes.BlkSize * initRes.BlkSize,
                 fun k => content.byte
                   (content.size / initRes.BlkSize * initRes.BlkSize + k)⟩
                initRes (content.size / initRes.BlkSize)]) ++
              [Event.finishCall
                (finishMultipartUpload s initRes
                  (String.intercalate ","
                    (sch.order.filterMap (goodTag env) ++ [pr2.2]))
                  env.finishOutcome env.unmarshalFinish).1
                initRes
                (String.intercalate ","
                  (sch.order.filterMap (goodTag env) ++ [pr2.2]))])
            = sch.order.map (fun j => (partSlice content initRes.BlkSize j, sch.iObs j))
              ++ [(⟨content.size - content.size / initRes.BlkSize * initRes.BlkSize,
                    fun k => content.byte
                      (content.size / initRes.BlkSize * initRes.BlkSize + k)⟩,
                   content.size / initRes.BlkSize)] := by
          rw [partEvents_append, List.cons_append, partEvents_initCall_cons,
            partEvents_append, partEvents_map_goroutine, partEvents_partCall_cons,
            partEvents_finishCall_cons]
          simp [partEvents]
        rw [hpe]
        refine ⟨?_, fun _ => ⟨List.getLast?_concat _, div_mul_sub_mod _ _⟩,
          fun h0 => absurd h0 hmod⟩
        rw [List.filter_append, hfilter]
        have hrb : ((⟨content.size - content.size / initRes.BlkSize * initRes.BlkSize,
            fun k => content.byte
              (content.size / initRes.BlkSize * initRes.BlkSize + k)⟩ : Bytes),
            content.size / initRes.BlkSize).1.size ≠ initRes.BlkSize := by
          simp only [div_mul_sub_mod]
          exact Nat.ne_of_lt (Nat.mod_lt _ hB)
        rw [List.filter_cons, if_neg (by simpa using hrb)]
        simp [List.length_map, hlen]

/-- C8: under the precondition that the session's block size is strictly
positive (and that the launched goroutine indices are the loop indices
below `size / BlkSize`), no arithmetic step of `Save`'s multipart
partitioning panics: the division and every slice bound are in range, so
the `panic` outcome of the embedding is unreachable; with block size 0 the
division `size / BlkSize` panics and `Save` reaches the `panic` outcome. -/
theorem C8_blocksize_guard (s : UfileStorage) (env : Env) (sch : Schedule) (content : Bytes)
    (filename : String) (initRes : initResponse)
    (hsize : MAX_PUT_SIZE < content.size)
    (hinit : (initiateMultipartUpload s env.initOutcome env.unmarshalInit filename).2
      = .ok initRes) :
    (0 < initRes.BlkSize →
      (∀ j ∈ sch.order, j < content.size / initRes.BlkSize) →
      (Save s env sch content filename).1 ≠ SaveOutcome.panic)
    ∧ (initRes.BlkSize = 0 → (Save s env sch content filename).1 = SaveOutcome.panic) := by
  constructor
  · intro hB hord
    have hrange : ∀ j ∈ sch.order, (j + 1) * initRes.BlkSize ≤ content.size := by
      intro j hj
      calc (j + 1) * initRes.BlkSize
          ≤ content.size / initRes.BlkSize * initRes.BlkSize :=
            Nat.mul_le_mul_right _ (hord j hj)
        _ ≤ content.size := Nat.div_mul_le_self _ _
    rw [Save_multipart s env sch content filename initRes hsize hinit
      (Nat.pos_iff_ne_zero.mp hB) hrange]
    split
    · simp
    · exact remainderPhase_fst_ne_panic _ _ _ _ _ _ _ (Nat.div_mul_le_self _ _)
  · intro hB0
    unfold Save
    rw [if_pos hsize, hinit]
    simp [goDiv, hB0]

theorem Save_snd_multipart_head (s : UfileStorage) (env : Env) (sch : Schedule)
    (content : Bytes) (filename : String) (h : MAX_PUT_SIZE < content.size) :
    ∃ rest, (Save s env sch content filename).2
      = Event.initCall
          (initiateMultipartUpload s env.initOutcome env.unmarshalInit filename).1 filename
        :: rest := by
  unfold Save
  rw [if_pos h]
  cases hires : (initiateMultipartUpload s env.initOutcome env.unmarshalInit filename).2 with
  | error e => exact ⟨[], rfl⟩
  | ok initRes =>
    dsimp only
    by_cases hB0 : initRes.BlkSize = 0
    · refine ⟨[], ?_⟩
      simp [goDiv, hB0]
    · have hdiv : goDiv content.size initRes.BlkSize
          = some (content.size / initRes.BlkSize) := by
        simp [goDiv, hB0]
      rw [hdiv]
      by_cases hp : (sch.order.foldl (goroutineStep s env sch content initRes)
          ⟨[], 0, [], false⟩).panicked = true
      · exact ⟨(sch.order.foldl (goroutineStep s env sch content initRes)
            ⟨[], 0, [], false⟩).events, by simp only [hp, reduceIte]⟩
      · by_cases hf : 2 ≤ (sch.order.foldl (goroutineStep s env sch content initRes)
            ⟨[], 0, [], false⟩).fails
        · exact ⟨(sch.order.foldl (goroutineStep s env sch content initRes)
              ⟨[], 0, [], false⟩).events,
            by simp only [hp, hf, Bool.false_eq_true, if_false, reduceIte]⟩
        · obtain ⟨tail, htail⟩ := remainderPhase_snd_prefix s env content initRes
            (content.size / initRes.BlkSize)
            (Event.initCall
              (initiateMultipartUpload s env.initOutcome env.unmarshalInit filename).1 filename
              :: (sch.order.foldl (goroutineStep s env sch content initRes)
                    ⟨[], 0, [], false⟩).events)
            (sch.order.foldl (goroutineStep s env sch content initRes) ⟨[], 0, [], false⟩).etags
          refine ⟨(sch.order.foldl (goroutineStep s env sch content initRes)
              ⟨[], 0, [], false⟩).events ++ tail, ?_⟩
          simp only [hp, hf, Bool.false_eq_true, if_false, reduceIte]
          rw [htail, List.cons_append]

/-- C5: a payload of at most `MAX_PUT_SIZE` bytes makes `Save` delegate
entirely to the single-shot `put` and return its result, with the trace
being exactly one PUT call and no multipart operation; a strictly larger
payload takes the multipart branch, whose trace starts with the
`initiateMultipartUpload` call. -/
theorem C5_size_dispatch (s : UfileStorage) (env : Env) (sch : Schedule) (content : Bytes)
    (filename : String) :
    (content.size ≤ MAX_PUT_SIZE →
      Save s env sch content filename =
        (SaveOutcome.done (put s env.putOutcome content filename).2,
         [Event.putCall (put s env.putOutcome content filename).1 filename]))
    ∧ (MAX_PUT_SIZE < content.size →
        ∃ req rest, (Save s env sch content filename).2
          = Event.initCall req filename :: rest) := by
  constructor
  · intro h
    unfold Save
    rw [if_neg (Nat.not_lt.mpr h)]
  · intro h
    obtain ⟨rest, hrest⟩ := Save_snd_multipart_head s env sch content filename h
    exact ⟨_, rest, hrest⟩

theorem contentLengthOk_uploadPart_event (s : UfileStorage) (c : Bytes)
    (info : initResponse) (pn : Nat) (o : HttpOutcome)
    (u : String → Except String uploadResponse) (p2 : Bytes) (pn2 : Nat) :
    contentLengthOk (Event.partCall (uploadPart s c info pn o u).1 p2 info pn2) = true := by
  simp [contentLengthOk, uploadPart, List.lookup]

theorem goroutineStep_all (s : UfileStorage) (env : Env) (sch : Schedule) (content : Bytes)
    (initRes : initResponse) (st : PhaseState) (j : Nat)
    (h : st.events.all contentLengthOk = true) :
    ((goroutineStep s env sch content initRes st j).events.all contentLengthOk) = true := by
  unfold goroutineStep
  split
  · exact h
  · split
    · exact h
    · dsimp only
      split <;> simp [List.all_append, h, contentLengthOk_uploadPart_event]

theorem foldl_all (s : UfileStorage) (env : Env) (sch : Schedule) (content : Bytes)
    (initRes : initResponse) (order : List Nat) (st : PhaseState)
    (h : st.events.all contentLengthOk = true) :
    ((order.foldl (goroutineStep s env sch content initRes) st).events.all
      contentLengthOk) = true := by
  induction order generalizing st with
  | nil => exact h
  | cons j rest ih =>
    exact ih _ (goroutineStep_all s env sch content initRes st j h)

theorem finishPhase_all (s : UfileStorage) (env : Env) (initRes : initResponse)
    (evs : List Event) (etags : List String)
    (h : evs.all contentLengthOk = true) :
    ((finishPhase s env initRes evs etags).2.all contentLengthOk) = true := by
  rw [finishPhase_snd]
  simp [List.all_append, h, contentLengthOk]

theorem remainderPhase_all (s : UfileStorage) (env : Env) (content : Bytes)
    (initRes : initResponse) (num : Nat) (evs : List Event) (etags : List String)
    (h : evs.all contentLengthOk = true) :
    ((remainderPhase s env content initRes num evs etags).2.all contentLengthOk) = true := by
  unfold remainderPhase
  split
  · split
    · exact h
    · split
      · simp [List.all_append, h, contentLengthOk_uploadPart_event]
      · exact finishPhase_all _ _ _ _ _
          (by simp [List.all_append, h, contentLengthOk_uploadPart_event])
  · exact finishPhase_all _ _ _ _ _ h

theorem Save_all_contentLength (s : UfileStorage) (env : Env) (sch : Schedule)
    (content : Bytes) (filename : String) :
    ((Save s env sch content filename).2.all contentLengthOk) = true := by
  unfold Save
  split
  · cases hires : (initiateMultipartUpload s env.initOutcome env.unmarshalInit filename).2 with
    | error e => simp [contentLengthOk]
    | ok initRes =>
      dsimp only
      by_cases hB0 : initRes.BlkSize = 0
      · simp [goDiv, hB0, contentLengthOk]
      · have hdiv : goDiv content.size initRes.BlkSize
            = some (content.size / initRes.BlkSize) := by
          simp [goDiv, hB0]
        rw [hdiv]
        have hall := foldl_all s env sch content initRes sch.order ⟨[], 0, [], false⟩ rfl
        by_cases hp : (sch.order.foldl (goroutineStep s env sch content initRes)
            ⟨[], 0, [], false⟩).panicked = true
        · simp only [hp, reduceIte]
          simp [List.all_cons, hall, contentLengthOk]
        · by_cases hf : 2 ≤ (sch.order.foldl (goroutineStep s env sch content initRes)
              ⟨[], 0, [], false⟩).fails
          · simp only [hp, hf, Bool.false_eq_true, if_false, reduceIte]
            simp [List.all_cons, hall, contentLengthOk]
          · simp only [hp, hf, Bool.false_eq_true, if_false, reduceIte]
            exact remainderPhase_all s env content initRes _ _ _
              (by simp [List.all_cons, hall, contentLengthOk])
  · simp [contentLengthOk]

/-- C7: `signheader` returns the base64 HMAC-SHA1, keyed by the private
key, of the five-line canonical string
`method \n \n ctype \n \n /bucket/filename` (Content-MD5 and Date lines
empty), and it is a pure function of the method, content type, bucket, key
and private key: two credential triples with the same private key produce
the same token. -/
theorem C7_signheader_pure (s s2 : UfileStorage) (method ctype bucket filename : String) :
    signheader s method ctype bucket filename
      = base64Encode (hmacSha1 (strBytes s.PrivateKey)
          (strBytes (method ++ "\n" ++ "\n" ++ ctype ++ "\n" ++ "\n"
            ++ "/" ++ bucket ++ "/" ++ filename)))
    ∧ (s.PrivateKey = s2.PrivateKey →
        signheader s method ctype bucket filename
          = signheader s2 method ctype bucket filename) := by
  constructor
  · simp only [signheader, String.append_assoc]
  · intro h
    simp [signheader, h]

/-- C9: the single-shot `put` succeeds exactly when an HTTP response with
status 200 is obtained; any other status yields a `message` error carrying
the response body verbatim after the `put file failed, ` prefix, and a
transport failure (no response) propagates as a `transport` error, a value
distinct from every protocol (`message`) error. -/
theorem C9_put_status_contract (s : UfileStorage) (content : Bytes) (filename : String) :
    (∀ o : HttpOutcome, (put s o content filename).2 = none ↔
        ∃ bodyRead etag, o = HttpOutcome.resp 200 bodyRead etag)
    ∧ (∀ status body etag, status ≠ 200 →
        (put s (.resp status (.ok body) etag) content filename).2
          = some (.message ("put file failed, " ++ body)))
    ∧ (∀ e, (put s (.doErr e) content filename).2 = some (.transport e))
    ∧ (∀ e m, GoErr.transport e ≠ GoErr.message m) := by
  refine ⟨?_, ?_, ?_, ?_⟩
  · intro o
    rw [put_snd]
    cases o with
    | doErr e => simp [putResult]
    | resp st br et =>
      by_cases hst : st = 200
      · subst hst
        simp [putResult]
      · constructor
        · intro hnone
          exfalso
          simp only [putResult] at hnone
          rw [if_pos (by simpa using hst)] at hnone
          cases br <;> simp at hnone
        · rintro ⟨br2, et2, heq⟩
          injection heq with h1 h2 h3
          exact absurd h1 hst
  · intro st b et h
    rw [put_snd]
    simp [putResult, h]
  · intro e
    rfl
  · intro e m h
    cases h

/-- C10: `JsonConfig.Get` runs the traversal loop `getNodes` on the dotted
key's components; whenever the component under scrutiny maps to a
non-object value, the loop returns that value with a nil error even when
components remain (so `Get "a.b.c"` returns the string stored at `"a.b"`
without error); and an error is produced only when some component is
absent from the object the traversal has reached. -/
theorem C10_get_shortcircuit :
    (∀ (cfg : JsonConfig) (key : String),
      cfg.Get key = getNodes key cfg.m (key.splitOn "."))
    ∧ (∀ (key : String) (m : List (String × Jv)) (n : String) (rest : List String) (v : Jv),
        jLookup m n = some v → jvIsObj v = false →
        getNodes key m (n :: rest) = .ok v)
    ∧ (∀ (key : String) (m : List (String × Jv)) (nodes : List String) (e : String),
        getNodes key m nodes = .error e →
        e = "no value for key " ++ key
        ∧ ∃ i n2 m2, nodes[i]? = some n2
            ∧ descend m (nodes.take i) = some m2 ∧ jLookup m2 n2 = none) := by
  refine ⟨fun _ _ => rfl, ?_, ?_⟩
  · intro key m n rest v hl hobj
    unfold getNodes
    rw [hl]
    cases v <;> simp_all [jvIsObj]
  · intro key m nodes
    induction nodes generalizing m with
    | nil =>
      intro e h
      simp [getNodes] at h
    | cons n rest ih =>
      intro e h
      unfold getNodes at h
      cases hl : jLookup m n with
      | none =>
        rw [hl] at h
        injection h with he
        exact ⟨he.symm, 0, n, m, by simp, rfl, hl⟩
      | some v =>
        rw [hl] at h
        cases v with
        | obj vv =>
          obtain ⟨he, i, n2, m2, h1, h2, h3⟩ := ih vv e h
          refine ⟨he, i + 1, n2, m2, by simpa using h1, ?_, h3⟩
          simp [descend, hl, h2]
        | null => simp at h
        | bool b => simp at h
        | num x => simp at h
        | str s => simp at h
        | arr xs => simp at h

/-- C1: counterexample evaluation.  A 52428802-byte payload with block size
26214401 has two full parts; under the completion order in which the
goroutine for part 1 finishes before the one for part 0 (all uploads
succeeding), the comma-joined tag string handed to the Finalizer is
`tag1,tag0` — completion order, not ascending part-number order. -/
theorem C1_tags_in_completion_order :
    finishArg (Save s0 env1 sch1 content1 "file").2 = some "tag1,tag0"
    ∧ "tag1,tag0" ≠ "tag0,tag1" := by decide

/-- C2: counterexample evaluation.  With two full parts and the (typical)
schedule in which both goroutine bodies run only after the launch loop has
finished, each goroutine observes the shared loop variable at its final
value 2, so both part uploads carry part number 2 — even though the byte
ranges transmitted are the correct slices at offsets 0 and 26214401
(witnessed by the first byte of each slice, the payload being
`fun k => k`).  The part numbers are not `[0, 1]`. -/
theorem C2_partnumber_shared_loop_variable :
    partNums (Save s0 env1 sch2 content2 "file").2 = [2, 2]
    ∧ partStarts (Save s0 env1 sch2 content2 "file").2 = [0, 26214401]
    ∧ partNums (Save s0 env1 sch2 content2 "file").2 ≠ [0, 1] := by decide

/-- C3: counterexample evaluation.  When the part upload of goroutine 0
fails (HTTP 500) and everything else succeeds, the error is sent to the
channel nobody drains: `Save` still invokes the Finalizer (with the single
tag of part 1) and returns nil. -/
theorem C3_goroutine_error_swallowed :
    exOk (uploadResult (env3.partOutcome 0) env3.unmarshalPart) = false
    ∧ (Save s0 env3 sch3 content1 "file").1 = SaveOutcome.done none
    ∧ finishArg (Save s0 env3 sch3 content1 "file").2 = some "tag1" := by decide

/-- C6: every part-upload request of every `Save` run carries a
`Content-Length` header equal to the session's block size; and concretely,
in the 52428801-byte run with block size 26214400, some part-upload
request (the one-byte remainder) transmits a byte slice whose length
differs from the block size while its `Content-Length` header still reads
the block size. -/
theorem C6_content_length_header :
    (∀ (s : UfileStorage) (env : Env) (sch : Schedule) (content : Bytes) (filename : String),
      ((Save s env sch content filename).2.all contentLengthOk) = true)
    ∧ ((Save s0 env4 sch3 content4 "file").2.any (fun e =>
        match e with
        | .partCall req p info _ =>
          decide (p.size ≠ info.BlkSize) &&
            (req.headers.lookup "Content-Length" == some (toString info.BlkSize))
        | _ => false)) = true :=
  ⟨fun s env sch content filename => Save_all_contentLength s env sch content filename,
   by decide⟩

/-- C4 witness: the 52428801-byte payload with block size 26214400, all
uploads succeeding, in the in-order schedule. -/
theorem C4_remainder_partition_witness :
    ((partEvents (Save s0 env4 sch3 content4 "file").2).filter
        (fun pe => pe.1.size == initRes4.BlkSize)).length
      = content4.size / initRes4.BlkSize
    ∧ (content4.size % initRes4.BlkSize ≠ 0 →
        (partEvents (Save s0 env4 sch3 content4 "file").2).getLast?
          = some (⟨content4.size - content4.size / initRes4.BlkSize * initRes4.BlkSize,
                   fun k => content4.byte
                     (content4.size / initRes4.BlkSize * initRes4.BlkSize + k)⟩,
                  content4.size / initRes4.BlkSize)
        ∧ content4.size - content4.size / initRes4.BlkSize * initRes4.BlkSize
            = content4.size % initRes4.BlkSize)
    ∧ (content4.size % initRes4.BlkSize = 0 →
        (partEvents (Save s0 env4 sch3 content4 "file").2).length
          = content4.size / initRes4.BlkSize
        ∧ ∀ pe ∈ partEvents (Save s0 env4 sch3 content4 "file").2,
            pe.1.size = initRes4.BlkSize) :=
  C4_remainder_partition s0 env4 sch3 content4 "file" initRes4
    (by decide) rfl (by decide) (by decide) (by decide) (by decide)

/-- C5 witness: a 3-byte payload goes through the single-shot branch; a
52428802-byte payload goes through the multipart branch. -/
theorem C5_size_dispatch_witness :
    (content3.size ≤ MAX_PUT_SIZE
      ∧ Save s0 env1 sch3 content3 "file" =
        (SaveOutcome.done (put s0 env1.putOutcome content3 "file").2,
         [Event.putCall (put s0 env1.putOutcome content3 "file").1 "file"]))
    ∧ (MAX_PUT_SIZE < content1.size
      ∧ ∃ req rest, (Save s0 env1 sch1 content1 "file").2
          = Event.initCall req "file" :: rest) :=
  ⟨⟨by decide, (C5_size_dispatch s0 env1 sch3 content3 "file").1 (by decide)⟩,
   ⟨by decide, (C5_size_dispatch s0 env1 sch1 content1 "file").2 (by decide)⟩⟩

/-- C7 witness: two credential triples sharing the private key `prikey`
sign identically, and the canonical-string equation at concrete inputs. -/
theorem C7_signheader_pure_witness :
    signheader s0 "PUT" "application/octet-stream" "bucket" "file"
      = signheader s1 "PUT" "application/octet-stream" "bucket" "file"
    ∧ signheader s0 "PUT" "application/octet-stream" "bucket" "file"
      = base64Encode (hmacSha1 (strBytes s0.PrivateKey)
          (strBytes ("PUT" ++ "\n" ++ "\n" ++ "application/octet-stream" ++ "\n" ++ "\n"
            ++ "/" ++ "bucket" ++ "/" ++ "file"))) :=
  ⟨(C7_signheader_pure s0 s1 "PUT" "application/octet-stream" "bucket" "file").2 rfl,
   (C7_signheader_pure s0 s1 "PUT" "application/octet-stream" "bucket" "file").1⟩

/-- C8 witness: with block size 26214400 the 52428801-byte run does not
panic; with block size 0 it panics. -/
theorem C8_blocksize_guard_witness :
    0 < initRes4.BlkSize
    ∧ (Save s0 env4 sch3 content4 "file").1 ≠ SaveOutcome.panic
    ∧ (Save s0 env5 sch3 content4 "file").1 = SaveOutcome.panic :=
  ⟨by decide,
   (C8_blocksize_guard s0 env4 sch3 content4 "file" initRes4 (by decide) rfl).1
     (by decide) (by decide),
   (C8_blocksize_guard s0 env5 sch3 content4 "file" initRes5 (by decide) rfl).2 rfl⟩

/-- C9 witness: concrete status-404, transport-failure and status-200
calls of `put`. -/
theorem C9_put_status_contract_witness :
    (put s0 (.resp 404 (.ok "nope") "") content3 "file").2
      = some (.message ("put file failed, " ++ "nope"))
    ∧ (put s0 (.doErr "conn refused") content3 "file").2
      = some (.transport "conn refused")
    ∧ (put s0 (.resp 200 (.ok "") "") content3 "file").2 = none :=
  ⟨(C9_put_status_contract s0 content3 "file").2.1 404 "nope" "" (by decide),
   (C9_put_status_contract s0 content3 "file").2.2.1 "conn refused",
   ((C9_put_status_contract s0 content3 "file").1 (.resp 200 (.ok "") "")).mpr
     ⟨.ok "", "", rfl⟩⟩

/-- C10 witness: the loop run on the components of `a.b.c` returns the
string stored under `b` with a nil error although the component `c`
remains, and a missing key produces the `no value for key` error whose
failing component the characterization locates. -/
theorem C10_get_shortcircuit_witness :
    getNodes "a.b.c" [("b", Jv.str "x")] ("b" :: ["c"]) = .ok (Jv.str "x")
    ∧ ("no value for key " ++ "z" = "no value for key " ++ "z"
      ∧ ∃ i n2 m2, (["z"] : List String)[i]? = some n2
          ∧ descend [] (List.take i ["z"]) = some m2 ∧ jLookup m2 n2 = none) :=
  ⟨C10_get_shortcircuit.2.1 "a.b.c" [("b", Jv.str "x")] "b" ["c"] (Jv.str "x") rfl rfl,
   C10_get_shortcircuit.2.2 "z" [] ["z"] ("no value for key " ++ "z") rfl⟩
